import Mathlib

/-!
# Verification of the image-resize core (`src/utils/imageProcessor.ts`)

Shallow embedding of the request-to-cache pipeline: parameter validation
(`validateResizeParams`), source-file discovery (`findImageFile`), cache-path
construction, cache-hit short-circuiting and format-specific encode dispatch
(`getFormatOptions`, `resizeImage`).

Modelling conventions:
* JavaScript runtime values that may flow into `width`/`height` (the TS type
  says `number`, but the validator defends against `null`/`undefined` and
  strings coming from query parameters) are modelled by `JSVal`; JavaScript
  numbers by `JSNum` (`NaN`, signed infinities, or an exact finite value as a
  rational — the binary-float rounding of literals is not modelled, and the
  decimal rendering of non-integral numbers is abbreviated; no claim depends
  on either).
* `Number(string)` coercion is modelled on the trimmed decimal fragment of
  JavaScript's grammar (sign, digits, fraction, exponent, `Infinity`); the
  hex/octal/binary literal forms are not modelled — no claim exercises them.
* The filesystem is a value: an association list of file paths to byte
  contents plus a list of directories, together with a trace of the mutating
  operations performed (`write`, `rename`, `mkdir`).  `fs.access` succeeds on
  files and directories alike, as in Node.
* `path.join` is modelled as concatenation with a `/` separator
  (`pathJoin a b = a ++ "/" ++ b`); Node's normalization of `.`/`..` segments
  is not modelled (no claim exercises it).  `process.cwd()` is an explicit
  `cwd` parameter, so all paths in theorems are cwd-relative.
* The Sharp codec is a black-box parameter (`Codec`): given the source path,
  the coerced numeric dimensions, the dispatched encoder format and its
  options, it either returns the encoded bytes or throws.  A thrown
  JavaScript value is a `JsThrow`: an `Error` with a message, or any other
  value.
-/

namespace ImageProc

/-- A JavaScript number: `NaN`, an infinity, or a finite value. -/
inductive JSNum where
  | nan : JSNum
  | inf (neg : Bool) : JSNum
  | fin (q : ℚ) : JSNum
  deriving DecidableEq, Repr

/-- A JavaScript runtime value that may appear in a `width`/`height` field. -/
inductive JSVal where
  | null : JSVal
  | undef : JSVal
  | num (n : JSNum) : JSVal
  | str (s : String) : JSVal
  deriving DecidableEq, Repr

/-- JavaScript `isNaN` on an already-coerced number. -/
def JSNum.isNaN : JSNum → Bool
  | .nan => true
  | _ => false

/-- JavaScript `x <= 0` on a number (`NaN <= 0` is `false`). -/
def JSNum.le0 : JSNum → Bool
  | .nan => false
  | .inf neg => neg
  | .fin q => decide (q ≤ 0)

/-- ASCII whitespace, the fragment of JavaScript's WhiteSpace/LineTerminator
classes any claim exercises. -/
def isJsSpace (c : Char) : Bool :=
  c == ' ' || c == '\t' || c == '\n' || c == '\r' || c == '\x0b' || c == '\x0c'

/-- JavaScript `String.prototype.trim`, modelled structurally on the character
list (so it reduces in the kernel). -/
def jsTrim (s : String) : String :=
  ⟨((s.data.dropWhile isJsSpace).reverse.dropWhile isJsSpace).reverse⟩

/-- JavaScript `String.prototype.toLowerCase` on the ASCII range, modelled
structurally on the character list. -/
def toLowerCase (s : String) : String :=
  ⟨s.data.map Char.toLower⟩

/-- Digits to a natural number. -/
def digitsVal (l : List Char) : Nat :=
  l.foldl (fun a c => a * 10 + (c.toNat - 48)) 0

/-- All characters are decimal digits. -/
def isDigits (l : List Char) : Bool :=
  l.all (fun c => c.isDigit)

/-- `Number(string)` on the decimal fragment of JavaScript's numeric grammar:
optional sign, integer digits and/or a fractional part, optional exponent, or
`Infinity`; an empty (all-whitespace) string coerces to `0`; anything else is
`NaN`.  Hex/octal/binary literals are not modelled. -/
def strToNumber (s : String) : JSNum :=
  let t := jsTrim s
  if t = "" then .fin 0
  else if t = "Infinity" || t = "+Infinity" then .inf false
  else if t = "-Infinity" then .inf true
  else
    let (sign, body) :=
      match t.data with
      | '-' :: rest => ((-1 : ℚ), rest)
      | '+' :: rest => ((1 : ℚ), rest)
      | l => ((1 : ℚ), l)
    let (mantChars, expChars) := body.span (fun c => c != 'e' && c != 'E')
    let (intPart, dotFrac) := mantChars.span (fun c => c != '.')
    let fracPart := dotFrac.drop 1
    let (expSign, expDigits) :=
      match expChars with
      | [] => ((1 : ℤ), ([] : List Char))
      | _ :: '-' :: rest => ((-1 : ℤ), rest)
      | _ :: '+' :: rest => ((1 : ℤ), rest)
      | _ :: rest => ((1 : ℤ), rest)
    if isDigits intPart && isDigits fracPart &&
        (!intPart.isEmpty || !fracPart.isEmpty) &&
        isDigits expDigits && (expChars.isEmpty || !expDigits.isEmpty) then
      let mant : ℚ :=
        (digitsVal intPart : ℚ) + (digitsVal fracPart : ℚ) / ((10 : ℚ) ^ fracPart.length)
      let e : ℤ := expSign * (digitsVal expDigits : ℤ)
      .fin (sign * mant * (10 : ℚ) ^ e)
    else .nan

/-- JavaScript `Number(x)` coercion as used on `width`/`height`. -/
def toNumber : JSVal → JSNum
  | .null => .fin 0
  | .undef => .nan
  | .num n => n
  | .str s => strToNumber s

/-- Rendering of a number by a JavaScript template literal.  Exact for
integers (the only case any claim evaluates); non-integral rationals are
rendered as `num/den`, abbreviating JavaScript's decimal output. -/
def JSNum.render : JSNum → String
  | .nan => "NaN"
  | .inf true => "-Infinity"
  | .inf false => "Infinity"
  | .fin q => if q.den = 1 then toString q.num else toString q

/-- Rendering of a runtime value by a JavaScript template literal. -/
def JSVal.render : JSVal → String
  | .null => "null"
  | .undef => "undefined"
  | .num n => n.render
  | .str s => s

/-- `ResizeParams` (src/utils/imageProcessor.ts lines 21–26): `width` and
`height` carry the runtime value actually received. -/
structure ResizeParams where
  filename : String
  width : JSVal
  height : JSVal
  format : Option String
  deriving DecidableEq, Repr

/-- Result of `validateResizeParams`: `{ isValid: boolean; error?: string }`. -/
structure ValidationResult where
  isValid : Bool
  error : Option String := none
  deriving DecidableEq, Repr

/-- `validateResizeParams` (src/utils/imageProcessor.ts lines 57–96), embedded
as a pure function (purity/determinism of the original is immediate from its
body: it only reads its argument).  `!filename` on a string is true exactly
for the empty string; `jsTrim` stands in for JavaScript's `trim`. -/
def validateResizeParams (params : ResizeParams) : ValidationResult :=
  let filename := params.filename
  let width := params.width
  let height := params.height
  if filename = "" ∨ jsTrim filename = "" then
    { isValid := false, error := some "Filename is required" }
  else if width = .null ∨ width = .undef ∨ height = .null ∨ height = .undef then
    { isValid := false, error := some "Both width and height parameters are required" }
  else
    let widthNum := toNumber width
    let heightNum := toNumber height
    if widthNum.isNaN ∨ heightNum.isNaN then
      { isValid := false, error := some "Width and height must be valid numbers" }
    else if widthNum.le0 ∨ heightNum.le0 then
      { isValid := false, error := some "Width and height must be positive numbers" }
    else
      { isValid := true }

/-- `SUPPORTED_FORMATS` (src/utils/imageProcessor.ts lines 8–16), in declared
order. -/
def SUPPORTED_FORMATS : List String :=
  ["jpg", "jpeg", "png", "webp", "gif", "tiff", "avif"]

/-- `ProcessingResult` (lines 31–36); absent optional fields are `none`. -/
structure ProcessingResult where
  success : Bool
  outputPath : Option String := none
  error : Option String := none
  cached : Option Bool := none
  deriving DecidableEq, Repr

/-- A mutating filesystem operation, recorded in the trace. -/
inductive FsOp where
  | write (path : String) : FsOp
  | rename (src dst : String) : FsOp
  | mkdir (path : String) : FsOp
  deriving DecidableEq, Repr

/-- The filesystem as a value: file contents, directories, and the trace of
mutating operations performed so far. -/
structure FileSystem where
  files : List (String × List Nat)
  dirs : List String
  trace : List FsOp := []
  deriving DecidableEq, Repr

/-- `fs.access`: succeeds on files and directories alike. -/
def FileSystem.access (fs : FileSystem) (p : String) : Bool :=
  fs.files.any (fun e => e.1 == p) || fs.dirs.contains p

/-- `fileExists` (lines 43–50): `fs.access` with the rejection caught. -/
def fileExists (fs : FileSystem) (filePath : String) : Bool :=
  fs.access filePath

/-- Writing a file (Sharp's `toFile`): replaces the content at the path or
appends a new entry, and records the write. -/
def FileSystem.writeFile (fs : FileSystem) (p : String) (content : List Nat) :
    FileSystem :=
  { fs with
    files :=
      if fs.files.any (fun e => e.1 == p) then
        fs.files.map (fun e => if e.1 == p then (p, content) else e)
      else fs.files ++ [(p, content)],
    trace := fs.trace ++ [.write p] }

/-- `ensureDirectoryExists` (lines 102–108): `fs.access`, and on rejection a
recursive `fs.mkdir`. -/
def ensureDirectoryExists (fs : FileSystem) (dirPath : String) : FileSystem :=
  if fs.access dirPath then fs
  else { fs with dirs := fs.dirs ++ [dirPath], trace := fs.trace ++ [.mkdir dirPath] }

/-- `path.join` on the two-argument calls the code makes: concatenation with a
separator (no `.`/`..` normalization, which no claim exercises). -/
def pathJoin (a b : String) : String :=
  a ++ "/" ++ b

/-- The record returned by `findImageFile` on success. -/
structure FoundImage where
  filePath : String
  extension : String
  deriving DecidableEq, Repr

/-- The `for … of SUPPORTED_FORMATS` loop of `findImageFile`, over the list of
extensions still to probe. -/
def findImageFileAux (fs : FileSystem) (baseDir filename : String) :
    List String → Option FoundImage
  | [] => none
  | ext :: rest =>
    if fileExists fs (pathJoin baseDir (filename ++ "." ++ ext)) then
      some ⟨pathJoin baseDir (filename ++ "." ++ ext), ext⟩
    else findImageFileAux fs baseDir filename rest

/-- `findImageFile` (lines 116–127). -/
def findImageFile (fs : FileSystem) (baseDir filename : String) : Option FoundImage :=
  findImageFileAux fs baseDir filename SUPPORTED_FORMATS

/-- The record returned by `getFormatOptions`; `options` is the record of
numeric encoder options. -/
structure FormatOptions where
  format : String
  options : List (String × Nat)
  deriving DecidableEq, Repr

/-- `getFormatOptions` (lines 134–154). -/
def getFormatOptions (format : String) : FormatOptions :=
  match toLowerCase format with
  | "jpg" | "jpeg" => ⟨"jpeg", [("quality", 90)]⟩
  | "png" => ⟨"png", [("compressionLevel", 9)]⟩
  | "webp" => ⟨"webp", [("quality", 90)]⟩
  | "gif" => ⟨"gif", []⟩
  | "tiff" => ⟨"tiff", [("quality", 90)]⟩
  | "avif" => ⟨"avif", [("quality", 90)]⟩
  | _ => ⟨"jpeg", [("quality", 90)]⟩

/-- Line 191: `const outputFormat = format || imageFile.extension;` — an
absent or empty (falsy) format falls back to the source extension. -/
def resolveOutputFormat (format : Option String) (extension : String) : String :=
  match format with
  | some f => if f = "" then extension else f
  | none => extension

/-- Lines 192–193: `outputFormat === 'jpeg' ? 'jpg' : outputFormat.toLowerCase()`. -/
def resolveOutputExt (outputFormat : String) : String :=
  if outputFormat = "jpeg" then "jpg" else toLowerCase outputFormat

/-- Lines 196–199: the cache path
`path.join(thumbDir, filename_widthxheight.outputExt)`, with the dimensions
rendered from the raw received values by the template literal. -/
def resolveCachePath (thumbDir filename : String) (width height : JSVal)
    (outputFormat : String) : String :=
  pathJoin thumbDir
    (filename ++ "_" ++ width.render ++ "x" ++ height.render ++ "." ++
      resolveOutputExt outputFormat)

/-- A value thrown by JavaScript code: an `Error` carrying a message, or any
other value. -/
inductive JsThrow where
  | error (message : String) : JsThrow
  | other : JsThrow
  deriving DecidableEq, Repr

/-- Lines 274–277: the message the catch-handler extracts from a thrown
value. -/
def JsThrow.handledMessage : JsThrow → String
  | .error m => m
  | .other => "An unknown error occurred during image processing"

/-- The Sharp decode/resize/encode capability as a black box: source path,
coerced numeric width and height, dispatched encoder format, encoder options;
either the encoded bytes or a thrown value.  (The constant resize options
`fit: cover, position: center` are the same on every call and are not
parameters.) -/
def Codec : Type :=
  String → JSNum → JSNum → String → List (String × Nat) → Except JsThrow (List Nat)

/-- Line 178: `const fullDir = path.join(process.cwd(), 'assets', 'full')`. -/
def fullDirOf (cwd : String) : String :=
  pathJoin (pathJoin cwd "assets") "full"

/-- Line 179: `const thumbDir = path.join(process.cwd(), 'assets', 'thumb')`. -/
def thumbDirOf (cwd : String) : String :=
  pathJoin (pathJoin cwd "assets") "thumb"

/-- Line 186: the not-found error message. -/
def notFoundMsg (filename : String) : String :=
  "Image '" ++ filename ++ "' not found in full folder. Supported formats: " ++
    String.intercalate ", " SUPPORTED_FORMATS

/-- Lines 229–264: the encode-dispatch switch selects the encoder named by the
format field, and its default branch encodes as JPEG. -/
def sharpDispatch (fmt : String) : String :=
  if fmt ∈ ["jpeg", "png", "webp", "gif", "tiff", "avif"] then fmt else "jpeg"

/-- The try-block of `resizeImage` (lines 165–270): the normal result or the
thrown value, together with the filesystem as mutated so far. -/
def resizeImageBody (codec : Codec) (cwd : String) (fs : FileSystem)
    (params : ResizeParams) : Except JsThrow ProcessingResult × FileSystem :=
  let validation := validateResizeParams params
  if !validation.isValid then
    (.ok { success := false, error := validation.error }, fs)
  else
    match findImageFile fs (fullDirOf cwd) params.filename with
    | none =>
        (.ok { success := false, error := some (notFoundMsg params.filename) }, fs)
    | some imageFile =>
        let outputFormat := resolveOutputFormat params.format imageFile.extension
        let thumbPath :=
          resolveCachePath (thumbDirOf cwd) params.filename params.width params.height
            outputFormat
        let fs := ensureDirectoryExists fs (thumbDirOf cwd)
        if fileExists fs thumbPath then
          (.ok { success := true, outputPath := some thumbPath, cached := some true }, fs)
        else
          let fmtOpts := getFormatOptions outputFormat
          match codec imageFile.filePath (toNumber params.width)
              (toNumber params.height) (sharpDispatch fmtOpts.format) fmtOpts.options with
          | .error t => (.error t, fs)
          | .ok bytes =>
              (.ok { success := true,
                     outputPath := some thumbPath,
                     cached := some false }, fs.writeFile thumbPath bytes)

/-- `resizeImage` (lines 162–280): the try/catch wrapper around the body;
filesystem mutations made before a throw persist. -/
def resizeImage (codec : Codec) (cwd : String) (fs : FileSystem)
    (params : ResizeParams) : ProcessingResult × FileSystem :=
  match resizeImageBody codec cwd fs params with
  | (.ok r, fs') => (r, fs')
  | (.error t, fs') => ({ success := false, error := some t.handledMessage }, fs')

/-- A codec that always succeeds with fixed bytes. -/
def pureCodec (bytes : List Nat) : Codec := fun _ _ _ _ _ => .ok bytes

/-- A codec that always throws. -/
def throwCodec (t : JsThrow) : Codec := fun _ _ _ _ _ => .error t

/-- A source tree holding the single PNG image `x`. -/
def pngFs : FileSystem := { files := [("/assets/full/x.png", [7])], dirs := [] }

/-- A source tree holding the single JPG image `x`. -/
def jpgFs : FileSystem := { files := [("/assets/full/x.jpg", [7])], dirs := [] }

/-- A directory where candidate files for the extensions jpeg and png
coexist. -/
def coexistFs : FileSystem :=
  { files := [("d/x.jpeg", [1]), ("d/x.png", [2])], dirs := [] }

/-- A plain valid request: image `x` at 50 by 50, no explicit format. -/
def sampleParams : ResizeParams := ⟨"x", .num (.fin 50), .num (.fin 50), none⟩

/-- Is this operation a rename? -/
def isRename : FsOp → Bool
  | .rename _ _ => true
  | _ => false

/-! ## Helper lemmas -/

/-- Any path under the full directory differs from any path under the thumb
directory: the directory names differ at a fixed character. -/
theorem fullPath_ne_thumbPath (base s t : String) :
    pathJoin (pathJoin base "full") s ≠ pathJoin (pathJoin base "thumb") t := by
  unfold pathJoin
  intro h
  have h2 := congrArg String.data h
  simp only [String.data_append] at h2
  simp only [List.append_assoc] at h2
  have h3 := List.append_cancel_left h2
  simp at h3

/-- Any path under the full directory differs from the thumb directory
itself. -/
theorem fullPath_ne_thumbDir (base s : String) :
    pathJoin (pathJoin base "full") s ≠ pathJoin base "thumb" := by
  unfold pathJoin
  intro h
  have h2 := congrArg String.data h
  simp only [String.data_append] at h2
  simp only [List.append_assoc] at h2
  have h3 := List.append_cancel_left h2
  simp at h3

/-- Updating the entry at one key leaves every key-membership test
unchanged. -/
theorem mapUpdate_any_key (files : List (String × List Nat)) (p : String)
    (content : List Nat) (q : String) :
    ((files.map (fun e => if e.1 == p then (p, content) else e)).any
      (fun e => e.1 == q)) = files.any (fun e => e.1 == q) := by
  induction files with
  | nil => rfl
  | cons e rest ih =>
    simp only [List.map_cons, List.any_cons, ih]
    cases he : (e.1 == p) with
    | true =>
      have hep : e.1 = p := by simpa using he
      simp [he, hep]
    | false => simp [he]

/-- `access` after a write: the written path, and everything that was already
accessible. -/
theorem access_writeFile (fs : FileSystem) (p : String) (content : List Nat)
    (q : String) :
    (fs.writeFile p content).access q = true ↔ (fs.access q = true ∨ q = p) := by
  unfold FileSystem.writeFile FileSystem.access
  cases hp : fs.files.any (fun e => e.1 == p) with
  | true =>
    simp only [hp, if_true, mapUpdate_any_key]
    constructor
    · exact Or.inl
    · rintro (h | rfl)
      · exact h
      · simp only [Bool.or_eq_true]; exact Or.inl hp
  | false =>
    simp only [hp, Bool.false_eq_true, if_false, List.any_append, List.any_cons,
      List.any_nil, Bool.or_eq_true, Bool.or_false, beq_iff_eq]
    constructor
    · rintro ((h | h) | h)
      · exact Or.inl (Or.inl h)
      · exact Or.inr h.symm
      · exact Or.inl (Or.inr h)
    · rintro ((h | h) | rfl)
      · exact Or.inl (Or.inl h)
      · exact Or.inr h
      · exact Or.inl (Or.inr rfl)

/-- A write changes no directories. -/
theorem dirs_writeFile (fs : FileSystem) (p : String) (content : List Nat) :
    (fs.writeFile p content).dirs = fs.dirs := by
  unfold FileSystem.writeFile
  rfl

/-- Ensuring a directory leaves the files untouched. -/
theorem files_ensure (fs : FileSystem) (d : String) :
    (ensureDirectoryExists fs d).files = fs.files := by
  unfold ensureDirectoryExists
  split <;> rfl

/-- `access` after ensuring a directory exists. -/
theorem access_ensure (fs : FileSystem) (d q : String) :
    (ensureDirectoryExists fs d).access q = true ↔ (fs.access q = true ∨ q = d) := by
  unfold ensureDirectoryExists
  cases hd : fs.access d with
  | true =>
    simp only [hd, if_true]
    constructor
    · exact Or.inl
    · rintro (h | rfl) <;> assumption
  | false =>
    simp only [hd, Bool.false_eq_true, if_false]
    unfold FileSystem.access at *
    simp only [List.contains_eq_any_beq, List.any_append, List.any_cons, List.any_nil,
      Bool.or_eq_true, Bool.or_false, beq_iff_eq] at *
    constructor
    · rintro (h | h | h)
      · exact Or.inl (Or.inl h)
      · exact Or.inl (Or.inr h)
      · exact Or.inr h
    · rintro ((h | h) | rfl)
      · exact Or.inl h
      · exact Or.inr (Or.inl h)
      · exact Or.inr (Or.inr rfl)

/-- Ensuring an already-accessible directory is a no-op. -/
theorem ensure_of_access (fs : FileSystem) (d : String) (h : fs.access d = true) :
    ensureDirectoryExists fs d = fs := by
  unfold ensureDirectoryExists
  simp [h]

/-- After ensuring, the directory is accessible. -/
theorem access_ensure_self (fs : FileSystem) (d : String) :
    (ensureDirectoryExists fs d).access d = true := by
  rw [access_ensure]
  exact Or.inr rfl

/-- The probe loop returns nothing iff no candidate exists. -/
theorem findImageFileAux_eq_none_iff (fs : FileSystem) (baseDir filename : String)
    (exts : List String) :
    findImageFileAux fs baseDir filename exts = none ↔
      ∀ ext ∈ exts, fileExists fs (pathJoin baseDir (filename ++ "." ++ ext)) = false := by
  induction exts with
  | nil => simp [findImageFileAux]
  | cons e rest ih =>
    simp only [findImageFileAux]
    cases he : fileExists fs (pathJoin baseDir (filename ++ "." ++ e)) with
    | true => simp [he]
    | false => simp [he, ih]

/-- The probe loop's successful answer: the candidate path for the returned
extension, which exists, and every earlier extension's candidate does not. -/
theorem findImageFileAux_eq_some (fs : FileSystem) (baseDir filename : String)
    (exts : List String) (res : FoundImage)
    (h : findImageFileAux fs baseDir filename exts = some res) :
    res.filePath = pathJoin baseDir (filename ++ "." ++ res.extension) ∧
    fileExists fs res.filePath = true ∧
    ∃ l₁ l₂, exts = l₁ ++ res.extension :: l₂ ∧
      ∀ ext ∈ l₁, fileExists fs (pathJoin baseDir (filename ++ "." ++ ext)) = false := by
  induction exts with
  | nil => simp [findImageFileAux] at h
  | cons e rest ih =>
    simp only [findImageFileAux] at h
    cases he : fileExists fs (pathJoin baseDir (filename ++ "." ++ e)) with
    | true =>
      rw [he, if_pos rfl] at h
      obtain rfl : FoundImage.mk (pathJoin baseDir (filename ++ "." ++ e)) e = res := by
        simpa using h
      exact ⟨rfl, he, [], rest, rfl, by simp⟩
    | false =>
      rw [he] at h
      simp only [Bool.false_eq_true, if_false] at h
      obtain ⟨h1, h2, l₁, l₂, hdec, hall⟩ := ih h
      refine ⟨h1, h2, e :: l₁, l₂, by rw [hdec]; rfl, ?_⟩
      intro x hx
      rcases List.mem_cons.mp hx with rfl | hx
      · exact he
      · exact hall x hx

/-- The probe loop only looks at the candidate paths: filesystems agreeing on
them produce the same answer. -/
theorem findImageFileAux_congr (fs fs' : FileSystem) (baseDir filename : String)
    (exts : List String)
    (h : ∀ ext ∈ exts, fileExists fs' (pathJoin baseDir (filename ++ "." ++ ext)) =
      fileExists fs (pathJoin baseDir (filename ++ "." ++ ext))) :
    findImageFileAux fs' baseDir filename exts = findImageFileAux fs baseDir filename exts := by
  induction exts with
  | nil => rfl
  | cons e rest ih =>
    simp only [findImageFileAux]
    rw [h e (List.mem_cons_self e rest)]
    cases he : fileExists fs (pathJoin baseDir (filename ++ "." ++ e)) with
    | true => simp [he]
    | false =>
      simp only [he, Bool.false_eq_true, if_false]
      exact ih (fun x hx => h x (List.mem_cons_of_mem e hx))

/-- An invalid validation always carries a message. -/
theorem validateResizeParams_invalid_error (params : ResizeParams)
    (h : (validateResizeParams params).isValid = false) :
    ∃ m, (validateResizeParams params).error = some m := by
  simp only [validateResizeParams] at h ⊢
  split_ifs at * <;> simp_all

/-- Run of the engine on invalid parameters. -/
theorem resizeImage_invalid (codec : Codec) (cwd : String) (fs : FileSystem)
    (params : ResizeParams)
    (hv : (validateResizeParams params).isValid = false) :
    resizeImage codec cwd fs params =
      ({ success := false, error := (validateResizeParams params).error }, fs) := by
  simp [resizeImage, resizeImageBody, hv]

/-- Run of the engine when no source file is located. -/
theorem resizeImage_notFound (codec : Codec) (cwd : String) (fs : FileSystem)
    (params : ResizeParams)
    (hv : (validateResizeParams params).isValid = true)
    (hf : findImageFile fs (fullDirOf cwd) params.filename = none) :
    resizeImage codec cwd fs params =
      ({ success := false, error := some (notFoundMsg params.filename) }, fs) := by
  simp [resizeImage, resizeImageBody, hv, hf]

/-- Run of the engine on a cache hit: the codec is never consulted and no
write happens. -/
theorem resizeImage_cacheHit (codec : Codec) (cwd : String) (fs : FileSystem)
    (params : ResizeParams) (img : FoundImage)
    (hv : (validateResizeParams params).isValid = true)
    (hf : findImageFile fs (fullDirOf cwd) params.filename = some img)
    (hhit : fileExists (ensureDirectoryExists fs (thumbDirOf cwd))
      (resolveCachePath (thumbDirOf cwd) params.filename params.width params.height
        (resolveOutputFormat params.format img.extension)) = true) :
    resizeImage codec cwd fs params =
      ({ success := true,
         outputPath := some (resolveCachePath (thumbDirOf cwd) params.filename
           params.width params.height (resolveOutputFormat params.format img.extension)),
         cached := some true },
       ensureDirectoryExists fs (thumbDirOf cwd)) := by
  simp [resizeImage, resizeImageBody, hv, hf, hhit]

/-- Run of the engine on a cache miss with a successful encode. -/
theorem resizeImage_cacheMiss_ok (codec : Codec) (cwd : String) (fs : FileSystem)
    (params : ResizeParams) (img : FoundImage) (bytes : List Nat)
    (hv : (validateResizeParams params).isValid = true)
    (hf : findImageFile fs (fullDirOf cwd) params.filename = some img)
    (hmiss : fileExists (ensureDirectoryExists fs (thumbDirOf cwd))
      (resolveCachePath (thumbDirOf cwd) params.filename params.width params.height
        (resolveOutputFormat params.format img.extension)) = false)
    (hc : codec img.filePath (toNumber params.width) (toNumber params.height)
      (sharpDispatch (getFormatOptions (resolveOutputFormat params.format img.extension)).format)
      (getFormatOptions (resolveOutputFormat params.format img.extension)).options = .ok bytes) :
    resizeImage codec cwd fs params =
      ({ success := true,
         outputPath := some (resolveCachePath (thumbDirOf cwd) params.filename
           params.width params.height (resolveOutputFormat params.format img.extension)),
         cached := some false },
       (ensureDirectoryExists fs (thumbDirOf cwd)).writeFile
         (resolveCachePath (thumbDirOf cwd) params.filename params.width params.height
           (resolveOutputFormat params.format img.extension)) bytes) := by
  simp [resizeImage, resizeImageBody, hv, hf, hmiss, hc]

/-- Run of the engine on a cache miss when the codec throws: the catch-handler
result. -/
theorem resizeImage_cacheMiss_throw (codec : Codec) (cwd : String) (fs : FileSystem)
    (params : ResizeParams) (img : FoundImage) (t : JsThrow)
    (hv : (validateResizeParams params).isValid = true)
    (hf : findImageFile fs (fullDirOf cwd) params.filename = some img)
    (hmiss : fileExists (ensureDirectoryExists fs (thumbDirOf cwd))
      (resolveCachePath (thumbDirOf cwd) params.filename params.width params.height
        (resolveOutputFormat params.format img.extension)) = false)
    (hc : codec img.filePath (toNumber params.width) (toNumber params.height)
      (sharpDispatch (getFormatOptions (resolveOutputFormat params.format img.extension)).format)
      (getFormatOptions (resolveOutputFormat params.format img.extension)).options = .error t) :
    resizeImage codec cwd fs params =
      ({ success := false, error := some t.handledMessage },
       ensureDirectoryExists fs (thumbDirOf cwd)) := by
  simp [resizeImage, resizeImageBody, hv, hf, hmiss, hc]

/-- Two booleans agreeing on truth are equal. -/
theorem bool_eq_of_iff_true {a b : Bool} (h : (a = true) ↔ (b = true)) : a = b := by
  cases a <;> cases b <;> simp_all

/-! ## Claims -/

/-- C1, counterexample to the claim as stated: the cache-path extension is not
the token verbatim — requesting format `PNG` yields extension `png` (the code
lowercases), and a provided-but-empty format token does not win — it falls
back to the source extension. -/
theorem C1_counterexample :
    resolveOutputExt "PNG" = "png" ∧ "png" ≠ "PNG" ∧
    (resizeImage (pureCodec [1]) "" pngFs
        ⟨"x", .num (.fin 50), .num (.fin 50), some "PNG"⟩).1.outputPath =
      some "/assets/thumb/x_50x50.png" ∧
    some "/assets/thumb/x_50x50.png" ≠ some "/assets/thumb/x_50x50.PNG" ∧
    resolveOutputFormat (some "") "png" = "png" ∧ "png" ≠ "" := by
  refine ⟨rfl, by decide, by decide, by decide, rfl, by decide⟩

/-- C1 (amended): for every request reaching the cache path resolver, the
resolved output-format token is the explicitly requested format when a
non-empty one is provided and otherwise the located source file's extension;
the cache path is thumbDir/filename_widthxheight.ext where ext is `jpg` when
the resolved token is exactly `jpeg` and the lowercased token for every other
token, with width and height embedded as the raw received values; in
particular (filename `x`, width 50, height 50, format `jpeg`) always resolves
to `assets/thumb/x_50x50.jpg` under the working directory; and a successful
engine result always carries exactly this resolved path. -/
theorem C1_cache_path_resolver :
    (∀ f ext : String, f ≠ "" → resolveOutputFormat (some f) ext = f)
  ∧ (∀ ext : String, resolveOutputFormat none ext = ext)
  ∧ (∀ (dir fname : String) (w h : JSVal) (tok : String),
      resolveCachePath dir fname w h tok =
        dir ++ "/" ++ (fname ++ "_" ++ w.render ++ "x" ++ h.render ++ "." ++
          (if tok = "jpeg" then "jpg" else toLowerCase tok)))
  ∧ (∀ cwd ext : String,
      resolveCachePath (thumbDirOf cwd) "x" (.num (.fin 50)) (.num (.fin 50))
        (resolveOutputFormat (some "jpeg") ext) = cwd ++ "/assets/thumb/x_50x50.jpg")
  ∧ (∀ (codec : Codec) (cwd : String) (fs : FileSystem) (params : ResizeParams)
      (img : FoundImage) (r : ProcessingResult) (fs' : FileSystem),
      findImageFile fs (fullDirOf cwd) params.filename = some img →
      resizeImage codec cwd fs params = (r, fs') →
      r.success = true →
      r.outputPath = some (resolveCachePath (thumbDirOf cwd) params.filename
        params.width params.height (resolveOutputFormat params.format img.extension))) := by
  refine ⟨?_, fun _ => rfl, fun _ _ _ _ _ => rfl, ?_, ?_⟩
  · intro f ext hf
    simp [resolveOutputFormat, hf]
  · intro cwd ext
    simp only [resolveCachePath, resolveOutputFormat, resolveOutputExt, thumbDirOf, pathJoin,
      JSVal.render, JSNum.render, String.append_assoc]
    congr 1
  · intro codec cwd fs params img r fs' hf hrun hs
    by_cases hv : (validateResizeParams params).isValid = true
    · by_cases hhit : fileExists (ensureDirectoryExists fs (thumbDirOf cwd))
        (resolveCachePath (thumbDirOf cwd) params.filename params.width params.height
          (resolveOutputFormat params.format img.extension)) = true
      · have heq := resizeImage_cacheHit codec cwd fs params img hv hf hhit
        rw [hrun] at heq
        injection heq with h1 h2
        rw [h1]
      · rcases hcodec : codec img.filePath (toNumber params.width) (toNumber params.height)
            (sharpDispatch (getFormatOptions (resolveOutputFormat params.format img.extension)).format)
            (getFormatOptions (resolveOutputFormat params.format img.extension)).options
          with t | bytes
        · have heq := resizeImage_cacheMiss_throw codec cwd fs params img t hv hf
            (by simpa using hhit) hcodec
          rw [hrun] at heq
          injection heq with h1 h2
          rw [h1] at hs
          simp at hs
        · have heq := resizeImage_cacheMiss_ok codec cwd fs params img bytes hv hf
            (by simpa using hhit) hcodec
          rw [hrun] at heq
          injection heq with h1 h2
          rw [h1]
    · have heq := resizeImage_invalid codec cwd fs params (by simpa using hv)
      rw [hrun] at heq
      injection heq with h1 h2
      rw [h1] at hs
      simp at hs

/-- C1 witness: the resolver and the engine-path link evaluated on concrete
inputs. -/
theorem C1_witness :
    ("webp" : String) ≠ "" ∧ resolveOutputFormat (some "webp") "png" = "webp" ∧
    findImageFile pngFs (fullDirOf "") "x" = some ⟨"/assets/full/x.png", "png"⟩ ∧
    (resizeImage (pureCodec [1]) "" pngFs
      ⟨"x", .num (.fin 50), .num (.fin 50), some "PNG"⟩).1.success = true ∧
    (resizeImage (pureCodec [1]) "" pngFs
        ⟨"x", .num (.fin 50), .num (.fin 50), some "PNG"⟩).1.outputPath =
      some (resolveCachePath (thumbDirOf "") "x" (.num (.fin 50)) (.num (.fin 50))
        (resolveOutputFormat (some "PNG") "png")) :=
  ⟨by decide, C1_cache_path_resolver.1 "webp" "png" (by decide), by decide, by decide,
    C1_cache_path_resolver.2.2.2.2 (pureCodec [1]) "" pngFs
      ⟨"x", .num (.fin 50), .num (.fin 50), some "PNG"⟩ ⟨"/assets/full/x.png", "png"⟩
      (resizeImage (pureCodec [1]) "" pngFs
        ⟨"x", .num (.fin 50), .num (.fin 50), some "PNG"⟩).1
      (resizeImage (pureCodec [1]) "" pngFs
        ⟨"x", .num (.fin 50), .num (.fin 50), some "PNG"⟩).2
      (by decide) rfl (by decide)⟩

/-- C2, counterexample to the claim as stated: `Infinity` is not coercible to
a finite number, yet the validator accepts it — the code only rejects `NaN`
coercions, not infinite ones. -/
theorem C2_counterexample :
    toNumber (JSVal.str "Infinity") = JSNum.inf false ∧
    (JSNum.inf false).isNaN = false ∧
    validateResizeParams ⟨"a", .str "Infinity", .num (.fin 100), none⟩ =
      { isValid := true, error := none } := by
  refine ⟨rfl, rfl, ?_⟩
  decide

/-- C2 (amended): the validator applies its checks in the fixed order —
(1) empty or whitespace-only filename gives `Filename is required`;
(2) null or undefined width or height gives `Both width and height parameters
are required`; (3) width or height whose numeric coercion is `NaN` (not
coercible to a number at all — infinite coercions pass this check) gives
`Width and height must be valid numbers`; (4) a coerced value at most zero
gives `Width and height must be positive numbers`; otherwise the request is
valid — the first failing check determines the message, and the validator is
a pure function by construction. -/
theorem C2_validator_check_order (params : ResizeParams) :
    (jsTrim params.filename = "" →
      validateResizeParams params =
        { isValid := false, error := some "Filename is required" })
  ∧ (jsTrim params.filename ≠ "" →
      (params.width = .null ∨ params.width = .undef ∨
        params.height = .null ∨ params.height = .undef) →
      validateResizeParams params =
        { isValid := false, error := some "Both width and height parameters are required" })
  ∧ (jsTrim params.filename ≠ "" →
      params.width ≠ .null → params.width ≠ .undef →
      params.height ≠ .null → params.height ≠ .undef →
      ((toNumber params.width).isNaN = true ∨ (toNumber params.height).isNaN = true) →
      validateResizeParams params =
        { isValid := false, error := some "Width and height must be valid numbers" })
  ∧ (jsTrim params.filename ≠ "" →
      params.width ≠ .null → params.width ≠ .undef →
      params.height ≠ .null → params.height ≠ .undef →
      (toNumber params.width).isNaN = false → (toNumber params.height).isNaN = false →
      ((toNumber params.width).le0 = true ∨ (toNumber params.height).le0 = true) →
      validateResizeParams params =
        { isValid := false, error := some "Width and height must be positive numbers" })
  ∧ (jsTrim params.filename ≠ "" →
      params.width ≠ .null → params.width ≠ .undef →
      params.height ≠ .null → params.height ≠ .undef →
      (toNumber params.width).isNaN = false → (toNumber params.height).isNaN = false →
      (toNumber params.width).le0 = false → (toNumber params.height).le0 = false →
      validateResizeParams params = { isValid := true, error := none }) := by
  have hblank : params.filename = "" → jsTrim params.filename = "" := by
    intro h; rw [h]; rfl
  refine ⟨?_, ?_, ?_, ?_, ?_⟩ <;>
    (intros; simp only [validateResizeParams]; split_ifs <;> simp_all)

/-- C2 witness: the third check fired on a concrete non-numeric width. -/
theorem C2_witness :
    jsTrim "a" ≠ "" ∧
    (toNumber (JSVal.str "abc")).isNaN = true ∧
    validateResizeParams ⟨"a", .str "abc", .num (.fin 5), none⟩ =
      { isValid := false, error := some "Width and height must be valid numbers" } :=
  ⟨by decide, by decide,
    (C2_validator_check_order ⟨"a", .str "abc", .num (.fin 5), none⟩).2.2.1
      (by decide) (by decide) (by decide) (by decide) (by decide) (Or.inl (by decide))⟩

/-- C3: when a file already exists at the resolved cache path, the engine
returns success with cached true and that path, touching nothing and never
consulting the codec; consequently a second call with the parameters of a
successful cached-false call — under any codec at all — yields cached true,
the same output path, and a byte-identical filesystem. -/
theorem C3_cache_check_idempotence :
    (∀ (codec : Codec) (cwd : String) (fs : FileSystem) (params : ResizeParams)
      (img : FoundImage),
      (validateResizeParams params).isValid = true →
      findImageFile fs (fullDirOf cwd) params.filename = some img →
      fileExists (ensureDirectoryExists fs (thumbDirOf cwd))
        (resolveCachePath (thumbDirOf cwd) params.filename params.width params.height
          (resolveOutputFormat params.format img.extension)) = true →
      resizeImage codec cwd fs params =
        ({ success := true,
           outputPath := some (resolveCachePath (thumbDirOf cwd) params.filename
             params.width params.height (resolveOutputFormat params.format img.extension)),
           cached := some true },
         ensureDirectoryExists fs (thumbDirOf cwd)))
  ∧ (∀ (codec codec2 : Codec) (cwd : String) (fs : FileSystem) (params : ResizeParams)
      (r1 : ProcessingResult) (fs1 : FileSystem),
      resizeImage codec cwd fs params = (r1, fs1) →
      r1.success = true → r1.cached = some false →
      ∃ p, r1.outputPath = some p ∧
        resizeImage codec2 cwd fs1 params =
          ({ success := true, outputPath := some p, cached := some true }, fs1)) := by
  constructor
  · exact fun codec cwd fs params img hv hf hhit =>
      resizeImage_cacheHit codec cwd fs params img hv hf hhit
  · intro codec codec2 cwd fs params r1 fs1 hrun hs hc
    by_cases hv : (validateResizeParams params).isValid = true
    case neg =>
      have heq := resizeImage_invalid codec cwd fs params (by simpa using hv)
      rw [hrun] at heq
      injection heq with h1 h2
      rw [h1] at hs; simp at hs
    case pos =>
    rcases hf : findImageFile fs (fullDirOf cwd) params.filename with _ | img
    case none =>
      have heq := resizeImage_notFound codec cwd fs params hv hf
      rw [hrun] at heq
      injection heq with h1 h2
      rw [h1] at hs; simp at hs
    case some =>
    by_cases hhit : fileExists (ensureDirectoryExists fs (thumbDirOf cwd))
        (resolveCachePath (thumbDirOf cwd) params.filename params.width params.height
          (resolveOutputFormat params.format img.extension)) = true
    case pos =>
      have heq := resizeImage_cacheHit codec cwd fs params img hv hf hhit
      rw [hrun] at heq
      injection heq with h1 h2
      rw [h1] at hc; simp at hc
    case neg =>
    rcases hcodec : codec img.filePath (toNumber params.width) (toNumber params.height)
        (sharpDispatch (getFormatOptions (resolveOutputFormat params.format img.extension)).format)
        (getFormatOptions (resolveOutputFormat params.format img.extension)).options
      with t | bytes
    case error =>
      have heq := resizeImage_cacheMiss_throw codec cwd fs params img t hv hf
        (by simpa using hhit) hcodec
      rw [hrun] at heq
      injection heq with h1 h2
      rw [h1] at hs; simp at hs
    case ok =>
    have heq := resizeImage_cacheMiss_ok codec cwd fs params img bytes hv hf
      (by simpa using hhit) hcodec
    rw [hrun] at heq
    injection heq with h1 h2
    subst h2
    have hcand : ∀ ext ∈ SUPPORTED_FORMATS,
        fileExists ((ensureDirectoryExists fs (thumbDirOf cwd)).writeFile
          (resolveCachePath (thumbDirOf cwd) params.filename params.width params.height
            (resolveOutputFormat params.format img.extension)) bytes)
          (pathJoin (fullDirOf cwd) (params.filename ++ "." ++ ext)) =
        fileExists fs (pathJoin (fullDirOf cwd) (params.filename ++ "." ++ ext)) := by
      intro ext hext
      apply bool_eq_of_iff_true
      unfold fileExists
      rw [access_writeFile, access_ensure]
      constructor
      · rintro ((h | h) | h)
        · exact h
        · exact absurd h (fullPath_ne_thumbDir (pathJoin cwd "assets")
            (params.filename ++ "." ++ ext))
        · exact absurd h (fullPath_ne_thumbPath (pathJoin cwd "assets")
            (params.filename ++ "." ++ ext) _)
      · intro h
        exact Or.inl (Or.inl h)
    have hf1 : findImageFile ((ensureDirectoryExists fs (thumbDirOf cwd)).writeFile
        (resolveCachePath (thumbDirOf cwd) params.filename params.width params.height
          (resolveOutputFormat params.format img.extension)) bytes)
        (fullDirOf cwd) params.filename = some img := by
      have hcongr := findImageFileAux_congr fs
        ((ensureDirectoryExists fs (thumbDirOf cwd)).writeFile
          (resolveCachePath (thumbDirOf cwd) params.filename params.width params.height
            (resolveOutputFormat params.format img.extension)) bytes)
        (fullDirOf cwd) params.filename SUPPORTED_FORMATS hcand
      unfold findImageFile at hf ⊢
      exact hcongr.trans hf
    have hacc : ((ensureDirectoryExists fs (thumbDirOf cwd)).writeFile
        (resolveCachePath (thumbDirOf cwd) params.filename params.width params.height
          (resolveOutputFormat params.format img.extension)) bytes).access
        (thumbDirOf cwd) = true := by
      rw [access_writeFile]
      exact Or.inl (access_ensure_self fs (thumbDirOf cwd))
    have hens := ensure_of_access _ _ hacc
    have hhit1 : fileExists ((ensureDirectoryExists fs (thumbDirOf cwd)).writeFile
        (resolveCachePath (thumbDirOf cwd) params.filename params.width params.height
          (resolveOutputFormat params.format img.extension)) bytes)
        (resolveCachePath (thumbDirOf cwd) params.filename params.width params.height
          (resolveOutputFormat params.format img.extension)) = true := by
      unfold fileExists
      rw [access_writeFile]
      exact Or.inr rfl
    have hsecond := resizeImage_cacheHit codec2 cwd
      ((ensureDirectoryExists fs (thumbDirOf cwd)).writeFile
        (resolveCachePath (thumbDirOf cwd) params.filename params.width params.height
          (resolveOutputFormat params.format img.extension)) bytes)
      params img hv hf1 (by rw [hens]; exact hhit1)
    rw [hens] at hsecond
    exact ⟨resolveCachePath (thumbDirOf cwd) params.filename params.width params.height
        (resolveOutputFormat params.format img.extension),
      by rw [h1], hsecond⟩

/-- C3 witness: a concrete first call followed by a second call under a
codec that always throws — the second call still hits the cache. -/
theorem C3_witness :
    (resizeImage (pureCodec [1, 2]) "" pngFs sampleParams).1.success = true ∧
    (resizeImage (pureCodec [1, 2]) "" pngFs sampleParams).1.cached = some false ∧
    (∃ p, (resizeImage (pureCodec [1, 2]) "" pngFs sampleParams).1.outputPath = some p ∧
      resizeImage (throwCodec .other) ""
          (resizeImage (pureCodec [1, 2]) "" pngFs sampleParams).2 sampleParams =
        ({ success := true, outputPath := some p, cached := some true },
         (resizeImage (pureCodec [1, 2]) "" pngFs sampleParams).2)) :=
  ⟨by decide, by decide,
    C3_cache_check_idempotence.2 (pureCodec [1, 2]) (throwCodec .other) "" pngFs sampleParams
      (resizeImage (pureCodec [1, 2]) "" pngFs sampleParams).1
      (resizeImage (pureCodec [1, 2]) "" pngFs sampleParams).2
      rfl (by decide) (by decide)⟩

/-- C4: the source locator probes the extensions in the fixed declared order
jpg, jpeg, png, webp, gif, tiff, avif against baseDir/filename.ext, returns
the first existing match with its extension, and returns none exactly when no
candidate among the seven exists — so the earlier extension deterministically
wins when several candidate files coexist. -/
theorem C4_source_locator (fs : FileSystem) (baseDir filename : String) :
    SUPPORTED_FORMATS = ["jpg", "jpeg", "png", "webp", "gif", "tiff", "avif"]
  ∧ (findImageFile fs baseDir filename = none ↔
      ∀ ext ∈ SUPPORTED_FORMATS,
        fileExists fs (pathJoin baseDir (filename ++ "." ++ ext)) = false)
  ∧ (∀ res, findImageFile fs baseDir filename = some res →
      res.filePath = pathJoin baseDir (filename ++ "." ++ res.extension) ∧
      fileExists fs res.filePath = true ∧
      ∃ l₁ l₂, SUPPORTED_FORMATS = l₁ ++ res.extension :: l₂ ∧
        ∀ ext ∈ l₁, fileExists fs (pathJoin baseDir (filename ++ "." ++ ext)) = false) :=
  ⟨rfl, findImageFileAux_eq_none_iff fs baseDir filename SUPPORTED_FORMATS,
    fun res h => findImageFileAux_eq_some fs baseDir filename SUPPORTED_FORMATS res h⟩

/-- C4 witness: with x.jpeg and x.png coexisting, jpeg wins. -/
theorem C4_witness :
    findImageFile coexistFs "d" "x" = some ⟨"d/x.jpeg", "jpeg"⟩ ∧
    (∃ l₁ l₂, SUPPORTED_FORMATS = l₁ ++ "jpeg" :: l₂ ∧
      ∀ ext ∈ l₁, fileExists coexistFs (pathJoin "d" ("x" ++ "." ++ ext)) = false) :=
  ⟨by decide,
    ((C4_source_locator coexistFs "d" "x").2.2 ⟨"d/x.jpeg", "jpeg"⟩ (by decide)).2.2⟩

/-- C5: for every valid request whose filename matches no source file under
any of the seven supported extensions, the engine fails and its error string
contains both the requested filename and the phrase `not found`. -/
theorem C5_not_found_error (codec : Codec) (cwd : String) (fs : FileSystem)
    (params : ResizeParams)
    (hv : (validateResizeParams params).isValid = true)
    (hn : ∀ ext ∈ SUPPORTED_FORMATS,
      fileExists fs (pathJoin (fullDirOf cwd) (params.filename ++ "." ++ ext)) = false) :
    (resizeImage codec cwd fs params).1.success = false ∧
    ∃ e, (resizeImage codec cwd fs params).1.error = some e ∧
      params.filename.data <:+: e.data ∧
      ("not found").data <:+: e.data := by
  have hf : findImageFile fs (fullDirOf cwd) params.filename = none :=
    (findImageFileAux_eq_none_iff fs (fullDirOf cwd) params.filename SUPPORTED_FORMATS).mpr hn
  rw [resizeImage_notFound codec cwd fs params hv hf]
  refine ⟨rfl, notFoundMsg params.filename, rfl, ?_, ?_⟩
  · refine ⟨"Image '".data, ("' not found in full folder. Supported formats: " ++
      String.intercalate ", " SUPPORTED_FORMATS).data, ?_⟩
    simp [notFoundMsg, String.data_append, List.append_assoc]
  · refine ⟨"Image '".data ++ params.filename.data ++ "' ".data,
      (" in full folder. Supported formats: " ++
        String.intercalate ", " SUPPORTED_FORMATS).data, ?_⟩
    simp [notFoundMsg, String.data_append, List.append_assoc]

/-- C5 witness: a valid request for a filename with no source file. -/
theorem C5_witness :
    (validateResizeParams ⟨"ghost", .num (.fin 10), .num (.fin 10), none⟩).isValid = true ∧
    ((resizeImage (pureCodec [1]) "" pngFs
        ⟨"ghost", .num (.fin 10), .num (.fin 10), none⟩).1.success = false ∧
      ∃ e, (resizeImage (pureCodec [1]) "" pngFs
          ⟨"ghost", .num (.fin 10), .num (.fin 10), none⟩).1.error = some e ∧
        ("ghost" : String).data <:+: e.data ∧ ("not found" : String).data <:+: e.data) :=
  ⟨by decide,
    C5_not_found_error (pureCodec [1]) "" pngFs ⟨"ghost", .num (.fin 10), .num (.fin 10), none⟩
      (by decide) (by decide)⟩

/-- C6: the encode option mapping — jpg and jpeg encode as JPEG at quality
90; png as PNG at compression level 9; webp, tiff and avif in kind at quality
90; gif as GIF with no extra options; and every unrecognized token falls into
the default branch, JPEG at quality 90. -/
theorem C6_encode_option_mapping :
    getFormatOptions "jpg" = ⟨"jpeg", [("quality", 90)]⟩
  ∧ getFormatOptions "jpeg" = ⟨"jpeg", [("quality", 90)]⟩
  ∧ getFormatOptions "png" = ⟨"png", [("compressionLevel", 9)]⟩
  ∧ getFormatOptions "webp" = ⟨"webp", [("quality", 90)]⟩
  ∧ getFormatOptions "tiff" = ⟨"tiff", [("quality", 90)]⟩
  ∧ getFormatOptions "avif" = ⟨"avif", [("quality", 90)]⟩
  ∧ getFormatOptions "gif" = ⟨"gif", []⟩
  ∧ (∀ s : String, toLowerCase s ∉ SUPPORTED_FORMATS →
      getFormatOptions s = ⟨"jpeg", [("quality", 90)]⟩) := by
  refine ⟨rfl, rfl, rfl, rfl, rfl, rfl, rfl, ?_⟩
  intro s hs
  simp only [getFormatOptions]
  split
  all_goals first
    | rfl
    | (exfalso; apply hs; simp only [SUPPORTED_FORMATS]; simp_all)

/-- C6 witness: an unrecognized token takes the default branch. -/
theorem C6_witness :
    toLowerCase "bmp" ∉ SUPPORTED_FORMATS ∧
    getFormatOptions "bmp" = ⟨"jpeg", [("quality", 90)]⟩ :=
  ⟨by decide, C6_encode_option_mapping.2.2.2.2.2.2.2 "bmp" (by decide)⟩

/-- C7: the engine never propagates a throw across its boundary — a normal
body outcome is returned as is, and a thrown value is converted into a
failure result carrying the thrown error's message, or the generic fallback
message when the thrown value is not an Error. -/
theorem C7_exception_boundary (codec : Codec) (cwd : String) (fs : FileSystem)
    (params : ResizeParams) :
    (∀ r fs', resizeImageBody codec cwd fs params = (.ok r, fs') →
      resizeImage codec cwd fs params = (r, fs'))
  ∧ (∀ t fs', resizeImageBody codec cwd fs params = (.error t, fs') →
      resizeImage codec cwd fs params =
        ({ success := false, error := some t.handledMessage }, fs'))
  ∧ JsThrow.handledMessage .other = "An unknown error occurred during image processing"
  ∧ (∀ m, JsThrow.handledMessage (.error m) = m) := by
  refine ⟨?_, ?_, rfl, fun _ => rfl⟩
  · intro r fs' h
    unfold resizeImage
    rw [h]
  · intro t fs' h
    unfold resizeImage
    rw [h]

/-- C7 witness: a codec that throws an Error is converted into a failure
result with that message. -/
theorem C7_witness :
    resizeImageBody (throwCodec (.error "decode failed")) "" pngFs sampleParams =
      (.error (.error "decode failed"),
        (resizeImageBody (throwCodec (.error "decode failed")) "" pngFs sampleParams).2) ∧
    resizeImage (throwCodec (.error "decode failed")) "" pngFs sampleParams =
      ({ success := false, error := some "decode failed" },
        (resizeImageBody (throwCodec (.error "decode failed")) "" pngFs sampleParams).2) :=
  ⟨rfl,
    (C7_exception_boundary (throwCodec (.error "decode failed")) "" pngFs sampleParams).2.1
      (.error "decode failed")
      (resizeImageBody (throwCodec (.error "decode failed")) "" pngFs sampleParams).2
      rfl⟩

/-- C8, evidence against the claim: on a cache miss the engine writes the
encoded artifact directly to the destination path — the operation trace is a
mkdir of the cache directory followed by a single write of the destination
path, with no temp file and no rename anywhere in the trace. -/
theorem C8_direct_write_no_rename :
    (resizeImage (pureCodec [1, 2, 3]) "" jpgFs sampleParams).1 =
      { success := true, outputPath := some "/assets/thumb/x_50x50.jpg",
        error := none, cached := some false } ∧
    (resizeImage (pureCodec [1, 2, 3]) "" jpgFs sampleParams).2.trace =
      [.mkdir "/assets/thumb", .write "/assets/thumb/x_50x50.jpg"] ∧
    ((resizeImage (pureCodec [1, 2, 3]) "" jpgFs sampleParams).2.trace.all
      (fun op => !isRename op)) = true := by
  exact ⟨by decide, by decide, by decide⟩

/-- C9: every result of the engine has exactly one of the two shapes —
success with a path and a cached flag and no error, or failure with an error
message and neither path nor cached flag. -/
theorem C9_result_shape (codec : Codec) (cwd : String) (fs : FileSystem)
    (params : ResizeParams) :
    ((resizeImage codec cwd fs params).1.success = true ∧
      (resizeImage codec cwd fs params).1.outputPath.isSome = true ∧
      (resizeImage codec cwd fs params).1.cached.isSome = true ∧
      (resizeImage codec cwd fs params).1.error = none) ∨
    ((resizeImage codec cwd fs params).1.success = false ∧
      (resizeImage codec cwd fs params).1.error.isSome = true ∧
      (resizeImage codec cwd fs params).1.outputPath = none ∧
      (resizeImage codec cwd fs params).1.cached = none) := by
  by_cases hv : (validateResizeParams params).isValid = true
  · rcases hf : findImageFile fs (fullDirOf cwd) params.filename with _ | img
    · rw [resizeImage_notFound codec cwd fs params hv hf]
      right; exact ⟨rfl, rfl, rfl, rfl⟩
    · by_cases hhit : fileExists (ensureDirectoryExists fs (thumbDirOf cwd))
          (resolveCachePath (thumbDirOf cwd) params.filename params.width params.height
            (resolveOutputFormat params.format img.extension)) = true
      · rw [resizeImage_cacheHit codec cwd fs params img hv hf hhit]
        left; exact ⟨rfl, rfl, rfl, rfl⟩
      · rcases hcodec : codec img.filePath (toNumber params.width) (toNumber params.height)
            (sharpDispatch (getFormatOptions (resolveOutputFormat params.format img.extension)).format)
            (getFormatOptions (resolveOutputFormat params.format img.extension)).options
          with t | bytes
        · rw [resizeImage_cacheMiss_throw codec cwd fs params img t hv hf
            (by simpa using hhit) hcodec]
          right; exact ⟨rfl, rfl, rfl, rfl⟩
        · rw [resizeImage_cacheMiss_ok codec cwd fs params img bytes hv hf
            (by simpa using hhit) hcodec]
          left; exact ⟨rfl, rfl, rfl, rfl⟩
  · rw [resizeImage_invalid codec cwd fs params (by simpa using hv)]
    right
    obtain ⟨m, hm⟩ := validateResizeParams_invalid_error params (by simpa using hv)
    refine ⟨rfl, ?_, rfl, rfl⟩
    simp [hm]

/-- C10: format matching for encode dispatch is case-insensitive — every
token lowercasing to a supported token selects that format's encoder rather
than the fallback — while the jpeg-to-jpg extension rewrite applies only to
the exact lowercase token `jpeg`, so requesting `JPEG` gives cache extension
`jpeg` yet still encodes as JPEG; the cache-path extension is always the
lowercased token for tokens other than `jpeg`. -/
theorem C10_case_insensitivity :
    (∀ s : String, toLowerCase s ∈ SUPPORTED_FORMATS →
      getFormatOptions s = getFormatOptions (toLowerCase s))
  ∧ (∀ s : String, toLowerCase s ∈ SUPPORTED_FORMATS →
      (getFormatOptions s).format =
        (if toLowerCase s = "jpg" ∨ toLowerCase s = "jpeg" then "jpeg" else toLowerCase s))
  ∧ (getFormatOptions "PNG").format = "png"
  ∧ (getFormatOptions "Webp").format = "webp"
  ∧ (∀ tok : String, tok ≠ "jpeg" → resolveOutputExt tok = toLowerCase tok)
  ∧ resolveOutputExt "jpeg" = "jpg"
  ∧ resolveOutputExt "JPEG" = "jpeg"
  ∧ (getFormatOptions "JPEG").format = "jpeg" := by
  refine ⟨?_, ?_, rfl, rfl, ?_, rfl, rfl, rfl⟩
  · intro s hs
    simp only [SUPPORTED_FORMATS, List.mem_cons, List.not_mem_nil, or_false] at hs
    rcases hs with h | h | h | h | h | h | h <;>
      (simp only [getFormatOptions.eq_def]; rw [h]; rfl)
  · intro s hs
    simp only [SUPPORTED_FORMATS, List.mem_cons, List.not_mem_nil, or_false] at hs
    rcases hs with h | h | h | h | h | h | h <;>
      (simp only [getFormatOptions.eq_def]; rw [h]; decide)
  · intro tok htok
    simp [resolveOutputExt, htok]

/-- C10 witness: PNG dispatches case-insensitively and JPEG is not rewritten
to jpg. -/
theorem C10_witness :
    toLowerCase "PNG" ∈ SUPPORTED_FORMATS ∧
    getFormatOptions "PNG" = getFormatOptions (toLowerCase "PNG") ∧
    ("JPEG" ≠ "jpeg" ∧ resolveOutputExt "JPEG" = toLowerCase "JPEG") :=
  ⟨by decide, C10_case_insensitivity.1 "PNG" (by decide),
    by decide, C10_case_insensitivity.2.2.2.2.1 "JPEG" (by decide)⟩

end ImageProc
